import Mathlib

/-!
Verification of the PICOSplat open-source 3DGS rendering components.

The development shallowly embeds:
* the half-float field extraction of `unpacking.hlsl` (`unpack_f16`,
  `unpack_unorm`, `unpack_pos`, `unpack_cov_mat`) at the bit-pattern level
  (`Nat` with explicit `% 2^32` / `% 2^16` where the machine word wraps);
* the covariance projection kernel (`transform` compute shader) over `ℝ`;
* the visibility / sort-key kernel (`measure distance` compute shader) and the
  quad-expansion vertex shader over `ℚ` (exact arithmetic; GPU floating-point
  rounding is idealized as exact field arithmetic);
* the Gaussian-evaluation pixel shader over `ℝ`;
* the PLY import subsystem (`splat_ply_parsing.h`, `splat_ply_conversion.cpp`)
  over `List Char` buffers, with the header loop driven by explicit fuel
  (the C++ loop consumes at least one byte per iteration in all the runs
  reasoned about here, so the fuel `length + 1` is never the deciding factor).
-/

namespace Splat

/-! ## Half-float field extraction (`unpacking.hlsl`, `unpack_f16`)

`unpack_f16(s, e, m, packed, offset)` extracts an `s+e+m`-bit field located at
bit `offset` of the 32-bit word `packed` and aligns it into a canonical binary16
bit pattern which `f16tof32` then converts.  We model the bit pattern that
`f16tof32` receives: its low 16 bits.  All word-level operations carry an
explicit `% 2^32`, and the final truncation to the low half carries `% 2^16`.
-/

/-- The aligned field mask computed by `unpack_f16`:
`((1 << (s + e + m)) - 1) << shift` on a 32-bit word, `shift = 15 - e - m`. -/
def f16_mask (s e m : ℕ) : ℕ :=
  (((1 <<< (s + e + m)) - 1) <<< (15 - e - m)) % 2 ^ 32

/-- Bit pattern produced by the source `unpack_f16` (the value handed to
`f16tof32`, i.e. the low 16 bits of the selected branch).  The three branches
are exactly those of the source: mask-free single shift when `s == 1` and
`offset == 0`, otherwise a shift (left when `offset < shift`, right otherwise)
followed by the mask. -/
def unpack_f16_bits (s e m packed offset : ℕ) : ℕ :=
  (if s = 1 ∧ offset = 0 then
    (packed <<< (15 - e - m)) % 2 ^ 32
  else if offset < 15 - e - m then
    ((packed <<< (15 - e - m - offset)) % 2 ^ 32) &&& f16_mask s e m
  else
    ((packed >>> (offset - (15 - e - m))) % 2 ^ 32) &&& f16_mask s e m) % 2 ^ 16

/-- The mask-free "single shift" extraction, generalized to an arbitrary
offset: align the field with one shift and hand the low 16 bits to
`f16tof32`, with no mask applied. -/
def f16_shift_only (e m packed offset : ℕ) : ℕ :=
  (if offset ≤ 15 - e - m then (packed <<< (15 - e - m - offset)) % 2 ^ 32
   else (packed >>> (offset - (15 - e - m))) % 2 ^ 32) % 2 ^ 16

/-- The masked extraction (the source's general-case branches): shift the field
into place, apply the mask, and hand the low 16 bits to `f16tof32`. -/
def f16_masked (s e m packed offset : ℕ) : ℕ :=
  (if offset < 15 - e - m then
    ((packed <<< (15 - e - m - offset)) % 2 ^ 32) &&& f16_mask s e m
  else
    ((packed >>> (offset - (15 - e - m))) % 2 ^ 32) &&& f16_mask s e m) % 2 ^ 16

/-- Real value denoted by a binary16 bit pattern (low 16 bits of `bits`).
Used to interpret extracted covariance entries as real numbers.  Infinities
and NaNs (exponent `31`) have no real denotation; they are mapped by the same
normal-number formula, which is irrelevant to every property proved here. -/
noncomputable def halfValue (bits : ℕ) : ℝ :=
  let b : ℕ := bits % 2 ^ 16
  let sgn : ℝ := if b / 2 ^ 15 = 1 then -1 else 1
  let e : ℕ := b / 2 ^ 10 % 2 ^ 5
  let man : ℕ := b % 2 ^ 10
  if e = 0 then
    sgn * (man : ℝ) / 2 ^ 10 * (2 ^ 14)⁻¹
  else
    sgn * (1 + (man : ℝ) / 2 ^ 10) * 2 ^ (e : ℤ) / 2 ^ 15

/-! ## Vectors and matrices (HLSL `floatN` / `floatNxM`, row-vector convention)

HLSL code in this repository multiplies with `mul(v, M)` (row vector times
matrix, Direct3D layout) for position transforms and `mul(M, v)` (matrix times
column vector) for the 2x2 footprint transform.  Matrices are stored row-major
as individual scalar fields `mRC` (row `R`, column `C`). -/

structure V2 (α : Type) where
  x : α
  y : α
deriving DecidableEq

structure V3 (α : Type) where
  x : α
  y : α
  z : α
deriving DecidableEq

structure V4 (α : Type) where
  x : α
  y : α
  z : α
  w : α
deriving DecidableEq

structure Mat3 (α : Type) where
  m00 : α
  m01 : α
  m02 : α
  m10 : α
  m11 : α
  m12 : α
  m20 : α
  m21 : α
  m22 : α
deriving DecidableEq

structure Mat4 (α : Type) where
  m00 : α
  m01 : α
  m02 : α
  m03 : α
  m10 : α
  m11 : α
  m12 : α
  m13 : α
  m20 : α
  m21 : α
  m22 : α
  m23 : α
  m30 : α
  m31 : α
  m32 : α
  m33 : α
deriving DecidableEq

/-- A 4x3 matrix, as four rows of three entries (the shape of
`local_to_view` in the transform shader: `mul(float4, M) : float3` and rows
`M[0] .. M[2]` used as `float3`). -/
structure Mat43 (α : Type) where
  r0 : V3 α
  r1 : V3 α
  r2 : V3 α
  r3 : V3 α
deriving DecidableEq

variable {α : Type} [LinearOrderedField α]

/-- HLSL `mul(v, M)` for `v : float4`, `M : float4x4` (row vector times
matrix). -/
def mulV4M4 (v : V4 α) (M : Mat4 α) : V4 α :=
  ⟨v.x * M.m00 + v.y * M.m10 + v.z * M.m20 + v.w * M.m30,
   v.x * M.m01 + v.y * M.m11 + v.z * M.m21 + v.w * M.m31,
   v.x * M.m02 + v.y * M.m12 + v.z * M.m22 + v.w * M.m32,
   v.x * M.m03 + v.y * M.m13 + v.z * M.m23 + v.w * M.m33⟩

/-- HLSL `mul(v, M)` for `v : float4`, `M : float4x3` (row vector times
matrix), as in `pos_view = mul(pos_local, local_to_view)`. -/
def mulV4M43 (v : V4 α) (M : Mat43 α) : V3 α :=
  ⟨v.x * M.r0.x + v.y * M.r1.x + v.z * M.r2.x + v.w * M.r3.x,
   v.x * M.r0.y + v.y * M.r1.y + v.z * M.r2.y + v.w * M.r3.y,
   v.x * M.r0.z + v.y * M.r1.z + v.z * M.r2.z + v.w * M.r3.z⟩

/-- HLSL `mul(v, M)` for `v : float3`, `M : float3x3` (row vector times
matrix), as in `pos_world = mul(pos_local, (half3x3)local_to_world)`. -/
def mulV3M3 (v : V3 α) (M : Mat3 α) : V3 α :=
  ⟨v.x * M.m00 + v.y * M.m10 + v.z * M.m20,
   v.x * M.m01 + v.y * M.m11 + v.z * M.m21,
   v.x * M.m02 + v.y * M.m12 + v.z * M.m22⟩

/-- HLSL cast `(half3x3)M` of a 4x4 matrix: the upper-left 3x3 block. -/
def mat3Of (M : Mat4 α) : Mat3 α :=
  ⟨M.m00, M.m01, M.m02, M.m10, M.m11, M.m12, M.m20, M.m21, M.m22⟩

/-- HLSL `saturate`: clamp to `[0, 1]`. -/
def saturate (q : α) : α := min (max q 0) 1

/-! ## Packing codec (`unpacking.hlsl`: `unpack_unorm`, `unpack_pos`) -/

/-- `unpack_unorm(bits, packed, offset)`: extract an unsigned integer field and
return its (unnormalized) value, faithful to the source's two branches. -/
def unpack_unorm (bits packed offset : ℕ) : α :=
  let Mask : ℕ := (1 <<< bits) - 1
  if offset = 0 then ((packed &&& Mask : ℕ) : α)
  else (((packed >>> offset) &&& Mask : ℕ) : α)

/-- `unpack_pos(packed, scale, offset)`: decode the x11y11z10 packed position
into `(xyz * scale + offset, 1)`. -/
def unpack_pos (packed : ℕ) (scale offset : V3 α) : V4 α :=
  let x : α := unpack_unorm 11 packed 0
  let y : α := unpack_unorm 11 packed 11
  let z : α := unpack_unorm 10 packed 22
  ⟨x * scale.x + offset.x, y * scale.y + offset.y, z * scale.z + offset.z, 1⟩

/-! ## Distance / sort-key kernel (`measure distance` compute shader)

Constants from `constants.hlsl`:
`DISTANCE_PRECISION = 16`, `DISTANCE_SCALE = (1 << 16) - 2`,
`DISTANCE_NOT_VISIBLE = (1 << 16) - 1`. -/

def DISTANCE_PRECISION : ℕ := 16

def DISTANCE_SCALE : ℚ := ((1 <<< DISTANCE_PRECISION) - 2 : ℕ)

def DISTANCE_NOT_VISIBLE : ℕ := (1 <<< DISTANCE_PRECISION) - 1

/-- The kernel's frustum classification:
`!(x < -w || x > w || y < -w || y > w || z > w)`. -/
def insideFrustum (p : V4 ℚ) : Bool :=
  !(p.x < -p.w || p.x > p.w || p.y < -p.w || p.y > p.w || p.z > p.w)

/-- Clip-space position computed by the kernel for one packed position:
`mul(unpack_pos(packed, pos_scale_cm, pos_min_cm), local_to_clip)`. -/
def clipOf (local_to_clip : Mat4 ℚ) (pos_scale pos_min : V3 ℚ) (packed : ℕ) :
    V4 ℚ :=
  mulV4M4 (unpack_pos packed pos_scale pos_min) local_to_clip

/-- The sort key written to `distances[id]`:
`inside ? uint(saturate(z / w) * DISTANCE_SCALE) : DISTANCE_NOT_VISIBLE`
(the `uint` cast truncates the nonnegative operand, i.e. takes the floor). -/
def measureDistance (p : V4 ℚ) : ℕ :=
  if insideFrustum p then (⌊saturate (p.z / p.w) * DISTANCE_SCALE⌋).toNat
  else DISTANCE_NOT_VISIBLE

/-- The `measure distance` compute-shader entry point, acting on the `indices`
and `distances` buffers: out-of-range invocations return before writing;
in-range invocations write `indices[id] = id` and `distances[id] = key`. -/
def measure_main (num_splats : ℕ) (local_to_clip : Mat4 ℚ)
    (pos_scale pos_min : V3 ℚ) (positions : ℕ → ℕ) (id : ℕ)
    (indices distances : ℕ → ℕ) : (ℕ → ℕ) × (ℕ → ℕ) :=
  if num_splats ≤ id then (indices, distances)
  else
    let pos_clip := clipOf local_to_clip pos_scale pos_min (positions id)
    (Function.update indices id id,
     Function.update distances id (measureDistance pos_clip))

/-! ## Radius constants (`constants.hlsl`)

`RADIUS_SIGMA = sqrt(8)`, `RADIUS_SIGMA_OVER_SQRT_2 = RADIUS_SIGMA / sqrt(2)`,
`CUTOFF_RADIUS_SIGMA_SQUARED_OVER_2 = RADIUS_SIGMA_OVER_SQRT_2 ^ 2`. -/

noncomputable def RADIUS_SIGMA : ℝ := Real.sqrt 8

noncomputable def RADIUS_SIGMA_OVER_SQRT_2 : ℝ := RADIUS_SIGMA / Real.sqrt 2

noncomputable def CUTOFF_RADIUS_SIGMA_SQUARED_OVER_2 : ℝ :=
  RADIUS_SIGMA_OVER_SQRT_2 * RADIUS_SIGMA_OVER_SQRT_2

/-- Exact value of `RADIUS_SIGMA_OVER_SQRT_2 = sqrt 8 / sqrt 2 = 2`, used to
give the quad-expansion vertex shader an exact rational corner constant. -/
def RADIUS_SIGMA_OVER_SQRT_2_Q : ℚ := 2

/-! ## Quad-expansion vertex stage (`render_splat.vs.hlsl`) -/

/-- The vertex shader's frustum test,
`x < -w || x > w || y < -w || y > w || z > w`. -/
def outsideFrustum (p : V4 ℚ) : Bool :=
  p.x < -p.w || p.x > p.w || p.y < -p.w || p.y > p.w || p.z > p.w

/-- The spec's frustum-rejection condition `|x| > |w| ∨ |y| > |w| ∨ z > w`
(stated with absolute values; the shaders test the five inequalities
directly). -/
def outsideAbs (p : V4 ℚ) : Prop :=
  |p.x| > |p.w| ∨ |p.y| > |p.w| ∨ p.z > p.w

/-- The fixed corner table of the vertex shader (two triangles covering a
square at `RADIUS_SIGMA_OVER_SQRT_2` in each axis, six entries). -/
def corners : List (V2 ℚ) :=
  [⟨-RADIUS_SIGMA_OVER_SQRT_2_Q, -RADIUS_SIGMA_OVER_SQRT_2_Q⟩,
   ⟨RADIUS_SIGMA_OVER_SQRT_2_Q, -RADIUS_SIGMA_OVER_SQRT_2_Q⟩,
   ⟨-RADIUS_SIGMA_OVER_SQRT_2_Q, RADIUS_SIGMA_OVER_SQRT_2_Q⟩,
   ⟨RADIUS_SIGMA_OVER_SQRT_2_Q, -RADIUS_SIGMA_OVER_SQRT_2_Q⟩,
   ⟨-RADIUS_SIGMA_OVER_SQRT_2_Q, RADIUS_SIGMA_OVER_SQRT_2_Q⟩,
   ⟨RADIUS_SIGMA_OVER_SQRT_2_Q, RADIUS_SIGMA_OVER_SQRT_2_Q⟩]

/-- HLSL `mul(half2x2(t.x, t.y, t.z, t.w), c)` (matrix times column vector). -/
def mul2x2 (t : V4 ℚ) (c : V2 ℚ) : V2 ℚ :=
  ⟨t.x * c.x + t.y * c.y, t.z * c.x + t.w * c.y⟩

/-- Outputs of the vertex shader. -/
structure VsOutput where
  sig_div_sqrt_2 : V2 ℚ
  color : V4 ℚ
  position : V4 ℚ
deriving DecidableEq

/-- Clip-space position computed by the vertex shader for one packed position:
truncate `unpack_pos` to `half3`, rotate by `(half3x3)local_to_world`, and
apply the host-provided `world_to_clip`. -/
def vsClipOf (local_to_world : Mat4 ℚ) (world_to_clip : V3 ℚ → V4 ℚ)
    (pos_scale pos_min : V3 ℚ) (packed : ℕ) : V4 ℚ :=
  let pl := unpack_pos packed pos_scale pos_min
  world_to_clip (mulV3M3 ⟨pl.x, pl.y, pl.z⟩ (mat3Of local_to_world))

/-- The vertex-shader entry point.  On the early `outside_frustum` return the
shader only assigns `out_position = (0, 0, 0, 0)`; the remaining outputs are
left unwritten and are modelled as zero. -/
def vs_main (local_to_world : Mat4 ℚ) (world_to_clip : V3 ℚ → V4 ℚ)
    (pos_scale pos_min : V3 ℚ) (resolution : V2 ℚ) (indices positions : ℕ → ℕ)
    (transforms colors : ℕ → V4 ℚ) (in_id : ℕ) : VsOutput :=
  let splat_id := indices (in_id / 6)
  let pos_clip :=
    vsClipOf local_to_world world_to_clip pos_scale pos_min (positions splat_id)
  if outsideFrustum pos_clip then
    { sig_div_sqrt_2 := ⟨0, 0⟩, color := ⟨0, 0, 0, 0⟩, position := ⟨0, 0, 0, 0⟩ }
  else
    let t := transforms splat_id
    let corner := corners.getD (in_id % 6) ⟨0, 0⟩
    let offset0 := mul2x2 t corner
    let offset : V2 ℚ := ⟨offset0.x / resolution.x, offset0.y / resolution.y⟩
    { sig_div_sqrt_2 := corner,
      color := colors splat_id,
      position := ⟨pos_clip.x + offset.x * pos_clip.w,
                   pos_clip.y + offset.y * pos_clip.w, pos_clip.z, pos_clip.w⟩ }

/-! ## Gaussian evaluation stage (`render_splat.ps.hlsl`) -/

/-- The pixel shader's alpha:
`(sig_sq_div_2 < CUTOFF_RADIUS_SIGMA_SQUARED_OVER_2) ? a / exp(sig_sq_div_2) : 0`. -/
noncomputable def ps_alpha (a d : ℝ) : ℝ :=
  if d < CUTOFF_RADIUS_SIGMA_SQUARED_OVER_2 then a / Real.exp d else 0

/-- The pixel-shader entry point: squared distance over two is the dot product
of the interpolated `sig_div_sqrt_2` with itself; RGB is passed through. -/
noncomputable def ps_main (sig_div_sqrt_2 : V2 ℝ) (in_color : V4 ℝ) : V4 ℝ :=
  ⟨in_color.x, in_color.y, in_color.z,
   ps_alpha in_color.w
     (sig_div_sqrt_2.x * sig_div_sqrt_2.x
       + sig_div_sqrt_2.y * sig_div_sqrt_2.y)⟩

/-! ## Covariance projection kernel (`transform` compute shader) -/

/-- HLSL `mul(a, b)` for two `float3` values (dot product). -/
def dot3 (a b : V3 ℝ) : ℝ := a.x * b.x + a.y * b.y + a.z * b.z

/-- HLSL `normalize` for `float2`. -/
noncomputable def normalize2 (v : V2 ℝ) : V2 ℝ :=
  let len := Real.sqrt (v.x * v.x + v.y * v.y)
  ⟨v.x / len, v.y / len⟩

/-- `unpack_cov_mat(packedCovMat)`: six binary16 fields extracted with
`unpack_f16` from the two packed words `(x, y)` and assembled into the full
symmetric 3x3 covariance matrix. -/
noncomputable def unpack_cov_mat (packedCovMat : ℕ × ℕ) : Mat3 ℝ :=
  let xx := halfValue (unpack_f16_bits 0 5 5 packedCovMat.2 22)
  let xy := halfValue (unpack_f16_bits 1 5 5 packedCovMat.2 11)
  let xz := halfValue (unpack_f16_bits 1 5 5 packedCovMat.2 0)
  let yy := halfValue (unpack_f16_bits 0 5 5 packedCovMat.1 22)
  let yz := halfValue (unpack_f16_bits 1 5 5 packedCovMat.1 11)
  let zz := halfValue (unpack_f16_bits 0 5 6 packedCovMat.1 0)
  ⟨xx, xy, xz, xy, yy, yz, xz, yz, zz⟩

/-- All intermediate quantities of the covariance projection kernel, named as
in the source. -/
structure CovData where
  pos_view : V3 ℝ
  jw_0 : V3 ℝ
  jw_1 : V3 ℝ
  sig_p_00 : ℝ
  sig_p_01_10 : ℝ
  sig_p_11 : ℝ
  det : ℝ
  trace : ℝ
  sqrt_disc : ℝ
  two_lmb : V2 ℝ
  sqrt_two_sigma : V2 ℝ
  v_0 : V2 ℝ

/-- The body of the covariance projection kernel: project the covariance
`sig` through the affine approximation `J * W` at the view-space position of
`pos_local`, and eigendecompose the projected 2x2 covariance. -/
noncomputable def cov_project (local_to_view : Mat43 ℝ) (pos_local : V4 ℝ)
    (sig : Mat3 ℝ) : CovData :=
  let pos_view := mulV4M43 pos_local local_to_view
  let W : Mat3 ℝ :=
    ⟨local_to_view.r0.x, local_to_view.r0.y, local_to_view.r0.z,
     local_to_view.r1.x, local_to_view.r1.y, local_to_view.r1.z,
     local_to_view.r2.x, local_to_view.r2.y, local_to_view.r2.z⟩
  let scale_x := -pos_view.x / pos_view.z
  let scale_y := -pos_view.y / pos_view.z
  let jw_0 : V3 ℝ :=
    ⟨W.m00 + scale_x * W.m02, W.m10 + scale_x * W.m12, W.m20 + scale_x * W.m22⟩
  let jw_1 : V3 ℝ :=
    ⟨W.m01 + scale_y * W.m02, W.m11 + scale_y * W.m12, W.m21 + scale_y * W.m22⟩
  let jw_sig_0 := mulV3M3 jw_0 sig
  let jw_sig_1 := mulV3M3 jw_1 sig
  let sig_p_00 := dot3 jw_sig_0 jw_0
  let sig_p_01_10 := dot3 jw_sig_0 jw_1
  let sig_p_11 := dot3 jw_sig_1 jw_1
  let det := sig_p_00 * sig_p_11 - sig_p_01_10 * sig_p_01_10
  let trace := sig_p_00 + sig_p_11
  let sqrt_disc := Real.sqrt (trace * trace - 4 * det)
  let two_lmb : V2 ℝ := ⟨trace + sqrt_disc, trace - sqrt_disc⟩
  let sqrt_two_sigma : V2 ℝ := ⟨Real.sqrt two_lmb.x, Real.sqrt two_lmb.y⟩
  let v_0 := normalize2 ⟨sig_p_01_10, two_lmb.x / 2 - sig_p_00⟩
  ⟨pos_view, jw_0, jw_1, sig_p_00, sig_p_01_10, sig_p_11, det, trace,
   sqrt_disc, two_lmb, sqrt_two_sigma, v_0⟩

/-- The `transform` compute-shader entry point, acting on the `transforms`
buffer: out-of-range invocations return before writing; in-range invocations
store the scaled eigenvector basis. -/
noncomputable def cov_transform_main (num_splats : ℕ) (local_to_view : Mat43 ℝ)
    (two_focal_length : V2 ℝ) (pos_scale pos_min : V3 ℝ) (positions : ℕ → ℕ)
    (covariances : ℕ → ℕ × ℕ) (id : ℕ) (transforms : ℕ → V4 ℝ) : ℕ → V4 ℝ :=
  if num_splats ≤ id then transforms
  else
    let pos_local := unpack_pos (positions id) pos_scale pos_min
    let sig := unpack_cov_mat (covariances id)
    let d := cov_project local_to_view pos_local sig
    let scale : V2 ℝ :=
      ⟨two_focal_length.x / d.pos_view.z * d.sqrt_two_sigma.x,
       two_focal_length.y / d.pos_view.z * d.sqrt_two_sigma.y⟩
    Function.update transforms id
      ⟨d.v_0.x * scale.x, -d.v_0.y * scale.y, d.v_0.y * scale.x,
       d.v_0.x * scale.y⟩

/-! ## PLY import subsystem (`splat_parsing.h`, `splat_ply_parsing.h`,
`splat_ply_conversion.cpp`)

Byte buffers and header text are modelled as `List Char`; the C++
`std::string_view` quirks of `pop_line` / `pop_token` (a moved-from
`string_view` is *not* cleared, and a whitespace-only line returns `nullopt`
without advancing) are reproduced exactly. -/

inductive Property where
  | Ignore
  | X
  | Y
  | Z
  | RotationX
  | RotationY
  | RotationZ
  | RotationW
  | ScaleX
  | ScaleY
  | ScaleZ
  | DCRed
  | DCGreen
  | DCBlue
  | Opacity
deriving DecidableEq

inductive PropertyFormat where
  | Unknown
  | I8
  | I16
  | I32
  | U8
  | U16
  | U32
  | F32
  | F64
deriving DecidableEq

inductive PlyFormat where
  | Invalid
  | ASCII
  | BinaryBigEndian
  | BinaryLittleEndian
deriving DecidableEq

/-- `Metadata`: available properties with their formats, and the splat count. -/
structure Metadata where
  properties : List (Property × PropertyFormat)
  num_splats : ℕ
deriving DecidableEq

/-- `PropertyDesc`: type and byte offset of a property within one record. -/
structure PropertyDesc where
  offset : ℕ
  type : PropertyFormat
deriving DecidableEq

/-- The mutable state of `SplatParserPly`. -/
structure PlyParser where
  format : PlyFormat
  layout : List (Property × PropertyDesc)
  num_splats : ℕ
  splat_size : ℕ
  buffer : List Char
deriving DecidableEq

/-- `whitespace_chars = " \t"`. -/
def isWsChar (c : Char) : Bool := c == ' ' || c == '\t'

def kwPly : List Char := ['p', 'l', 'y']
def kwFormat : List Char := ['f', 'o', 'r', 'm', 'a', 't']
def kwComment : List Char := ['c', 'o', 'm', 'm', 'e', 'n', 't']
def kwElement : List Char := ['e', 'l', 'e', 'm', 'e', 'n', 't']
def kwVertex : List Char := ['v', 'e', 'r', 't', 'e', 'x']
def kwProperty : List Char := ['p', 'r', 'o', 'p', 'e', 'r', 't', 'y']
def kwEndHeader : List Char :=
  ['e', 'n', 'd', '_', 'h', 'e', 'a', 'd', 'e', 'r']
def kwAscii : List Char := ['a', 's', 'c', 'i', 'i']
def kwBinaryBigEndian : List Char :=
  ['b', 'i', 'n', 'a', 'r', 'y', '_', 'b', 'i', 'g', '_', 'e', 'n', 'd', 'i',
   'a', 'n']
def kwBinaryLittleEndian : List Char :=
  ['b', 'i', 'n', 'a', 'r', 'y', '_', 'l', 'i', 't', 't', 'l', 'e', '_', 'e',
   'n', 'd', 'i', 'a', 'n']
def kwFloat : List Char := ['f', 'l', 'o', 'a', 't']
def kwFloat32 : List Char := ['f', 'l', 'o', 'a', 't', '3', '2']

def pnX : List Char := ['x']
def pnY : List Char := ['y']
def pnZ : List Char := ['z']
def pnDC0 : List Char := ['f', '_', 'd', 'c', '_', '0']
def pnDC1 : List Char := ['f', '_', 'd', 'c', '_', '1']
def pnDC2 : List Char := ['f', '_', 'd', 'c', '_', '2']
def pnOpacity : List Char := ['o', 'p', 'a', 'c', 'i', 't', 'y']
def pnRot0 : List Char := ['r', 'o', 't', '_', '0']
def pnRot1 : List Char := ['r', 'o', 't', '_', '1']
def pnRot2 : List Char := ['r', 'o', 't', '_', '2']
def pnRot3 : List Char := ['r', 'o', 't', '_', '3']
def pnScale0 : List Char := ['s', 'c', 'a', 'l', 'e', '_', '0']
def pnScale1 : List Char := ['s', 'c', 'a', 'l', 'e', '_', '1']
def pnScale2 : List Char := ['s', 'c', 'a', 'l', 'e', '_', '2']

/-- `format_map`. -/
def format_map (t : List Char) : Option PlyFormat :=
  if t = kwAscii then some .ASCII
  else if t = kwBinaryBigEndian then some .BinaryBigEndian
  else if t = kwBinaryLittleEndian then some .BinaryLittleEndian
  else none

/-- `property_map`. -/
def property_map (t : List Char) : Option Property :=
  if t = pnX then some .X
  else if t = pnY then some .Y
  else if t = pnZ then some .Z
  else if t = pnDC0 then some .DCRed
  else if t = pnDC1 then some .DCGreen
  else if t = pnDC2 then some .DCBlue
  else if t = pnOpacity then some .Opacity
  else if t = pnRot0 then some .RotationW
  else if t = pnRot1 then some .RotationX
  else if t = pnRot2 then some .RotationY
  else if t = pnRot3 then some .RotationZ
  else if t = pnScale0 then some .ScaleX
  else if t = pnScale1 then some .ScaleY
  else if t = pnScale2 then some .ScaleZ
  else none

/-- `type_map`: only `float` and `float32` are recognized. -/
def type_map (t : List Char) : Option PropertyFormat :=
  if t = kwFloat then some .F32
  else if t = kwFloat32 then some .F32
  else none

/-- `type_size_map`: the C++ map holds only the key `F32` (size 4); the
source only ever calls `.at` with a type produced by `type_map`, so the
other cases (which would throw) are unreachable and mapped to `0`. -/
def type_size_map (t : PropertyFormat) : ℕ :=
  match t with
  | .F32 => 4
  | _ => 0

/-- `pop_line`: split at the first `'\n'`.  With no `'\n'` the *whole,
untrimmed* text is returned and (since moving a `string_view` copies it) the
text is left in place.  A line that trims to nothing yields `nullopt`
without advancing the text. -/
def popLine (text : List Char) : Option (List Char) × List Char :=
  match text.findIdx? (fun c => c == '\n') with
  | none => (some text, text)
  | some i =>
    let line0 := (text.take i).dropWhile isWsChar
    if line0.isEmpty then (none, text)
    else (some ((line0.reverse.dropWhile isWsChar).reverse), text.drop (i + 1))

/-- `pop_token`: `nullopt` unless the line starts directly on a token
boundary; a token followed by no whitespace returns the whole line and leaves
it in place (moved-from `string_view`, again).  When a token's trailing
whitespace runs to the end of the line the C++ `remove_prefix(npos)` is
undefined behaviour; it is modelled as dropping everything (that situation is
unreachable from trimmed `pop_line` output). -/
def popToken (line : List Char) : Option (List Char) × List Char :=
  match line with
  | [] => (none, line)
  | c :: _ =>
    if isWsChar c then (none, line)
    else
      match line.findIdx? isWsChar with
      | none => (some line, line)
      | some _ =>
        (some (line.takeWhile (fun c => !isWsChar c)),
         (line.dropWhile (fun c => !isWsChar c)).dropWhile isWsChar)

/-- `std::from_chars` for an unsigned integer: fails unless the text starts
with a digit, else reads the leading digit run (overflow ignored: `ℕ` is
unbounded where `size_t` would report `result_out_of_range`). -/
def parseNat (l : List Char) : Option ℕ :=
  match l with
  | [] => none
  | c :: _ =>
    if c.isDigit then
      some ((l.takeWhile Char.isDigit).foldl
        (fun n c => 10 * n + (c.toNat - 48)) 0)
    else none

def containsKey {β : Type} (l : List (Property × β)) (p : Property) : Bool :=
  l.any (fun q => decide (q.1 = p))

/-- `SplatParserPly::add_property`: `none` models returning `false`
(duplicate named property); otherwise the layout/record size is extended.
The record offset is the size *before* the increment, as in the source. -/
def add_property (st : PlyParser) (property : Property)
    (type : PropertyFormat) : Option PlyParser :=
  if property ≠ Property.Ignore then
    if containsKey st.layout property then none
    else
      some { st with
        layout := st.layout ++ [(property, ⟨st.splat_size, type⟩)],
        splat_size := st.splat_size + type_size_map type }
  else some { st with splat_size := st.splat_size + type_size_map type }

/-- The `while (true)` line loop of `parse_header`, with explicit fuel.
`none` = fuel exhausted (the C++ loop would still be running), `some none` =
`return false`, `some (some st)` = `end_header` reached (with `buffer`
advanced to the data section). -/
def headerLoop : ℕ → List Char → PlyParser → Option (Option PlyParser)
  | 0, _, _ => none
  | fuel + 1, text, st =>
    match popLine text with
    | (none, _) => some none
    | (some line, text') =>
      match popToken line with
      | (none, _) => some none
      | (some tok, line1) =>
        if tok = kwComment then headerLoop fuel text' st
        else if tok = kwElement then
          if st.num_splats ≠ 0 then some none
          else
            match popToken line1 with
            | (none, _) => some none
            | (some tok2, line2) =>
              if tok2 ≠ kwVertex then some none
              else
                match popToken line2 with
                | (none, _) => some none
                | (some tok3, _) =>
                  match parseNat tok3 with
                  | none => some none
                  | some n =>
                    if n = 0 then some none
                    else headerLoop fuel text' { st with num_splats := n }
        else if tok = kwProperty then
          if st.num_splats = 0 then some none
          else
            match popToken line1 with
            | (none, _) => some none
            | (some tok2, line2) =>
              match type_map tok2 with
              | none => some none
              | some type =>
                match popToken line2 with
                | (none, _) => some none
                | (some tok3, _) =>
                  match property_map tok3 with
                  | some prop =>
                    match add_property st prop type with
                    | none => some none
                    | some st' => headerLoop fuel text' st'
                  | none =>
                    -- The source discards `add_property`'s result here, and
                    -- `add_property` with `Ignore` always succeeds.
                    headerLoop fuel text'
                      ((add_property st Property.Ignore type).getD st)
        else if tok = kwEndHeader then some (some { st with buffer := text' })
        else some none

/-- `SplatParserPly::parse_header`: magic line, format line, then the header
loop.  The loop fuel `length + 1` covers every terminating C++ run, since each
loop iteration that does not exit consumes at least the popped line's `'\n'`
(only an unterminated trailing `comment` line loops forever in C++, and that
run never exits). -/
def parse_header (st : PlyParser) : Option (Option PlyParser) :=
  match popLine st.buffer with
  | (none, _) => some none
  | (some line, text1) =>
    if line ≠ kwPly then some none
    else
      match popLine text1 with
      | (none, _) => some none
      | (some fline, text2) =>
        match popToken fline with
        | (none, _) => some none
        | (some tok, frest) =>
          if tok ≠ kwFormat then some none
          else
            match popToken frest with
            | (none, _) => some none
            | (some ftok, frest2) =>
              match format_map ftok with
              | none => some none
              | some fmt =>
                match popToken frest2 with
                | (none, _) => some none
                | (some _, _) =>
                  -- A version other than `1.0` only logs a warning.
                  headerLoop (text2.length + 1) text2 { st with format := fmt }

/-- Insert one layout entry into `metadata.properties`
(`unordered_map::emplace`: no overwrite of an existing key). -/
def emplaceProp (props : List (Property × PropertyFormat))
    (q : Property × PropertyDesc) : List (Property × PropertyFormat) :=
  if containsKey props q.1 then props else props ++ [(q.1, q.2.type)]

/-- `SplatParserPly::parse_metadata`.  The result pairs the returned `bool`
with the caller's `metadata` out-parameter after the call; `none` stands for
the (unreachable here) fuel-exhausted run. -/
def parse_metadata (ply_buffer : List Char) (metadata : Metadata) :
    Option (Bool × Metadata) :=
  match parse_header ⟨.Invalid, [], 0, 0, ply_buffer⟩ with
  | none => none
  | some none => some (false, metadata)
  | some (some st) =>
    if st.buffer.length ≠ st.num_splats * st.splat_size then
      some (false, metadata)
    else
      some (true,
        { properties := st.layout.foldl emplaceProp metadata.properties,
          num_splats := st.num_splats })

/-- `SplatParserPly::parse_data`: the returned `bool` and the sequence of
splat indices passed to `parse_splat` (none for the rejected ASCII and
`Invalid` formats; `0, 1, ..., num_splats - 1` for the binary formats). -/
def parse_data (st : PlyParser) : Bool × List ℕ :=
  match st.format with
  | .ASCII => (false, [])
  | .BinaryBigEndian => (true, List.range st.num_splats)
  | .BinaryLittleEndian => (true, List.range st.num_splats)
  | .Invalid => (false, [])

/-- `validate_metadata`'s required-property list, in source order. -/
def required_properties : List Property :=
  [.X, .Y, .Z, .RotationX, .RotationY, .RotationZ, .RotationW, .ScaleX,
   .ScaleY, .ScaleZ, .DCRed, .DCGreen, .DCBlue, .Opacity]

/-- `import::ply::validate_metadata`: `false` as soon as one required
property is missing. -/
def validate_metadata (m : Metadata) : Bool :=
  required_properties.all (fun p => containsKey m.properties p)

/-- A line declaring a property whose type token is not recognized by
`type_map` (i.e. neither `float` nor `float32`). -/
def isBadPropLine (line : List Char) : Bool :=
  match popToken line with
  | (some tok, rest) =>
    decide (tok = kwProperty) &&
      (match popToken rest with
       | (some tok2, _) => (type_map tok2).isNone
       | (none, _) => false)
  | (none, _) => false

def isEndHeaderLine (line : List Char) : Bool :=
  decide ((popToken line).1 = some kwEndHeader)

/-- The header text reaches (in the parser's own line decomposition, before
any `end_header`) a property line with an unrecognized type. -/
inductive ReachesBadProp : List Char → Prop where
  | here {text line text'} : popLine text = (some line, text') →
      isBadPropLine line = true → ReachesBadProp text
  | there {text line text'} : popLine text = (some line, text') →
      isBadPropLine line = false → isEndHeaderLine line = false →
      text'.length < text.length → ReachesBadProp text' → ReachesBadProp text

def kwVersion : List Char := ['1', '.', '0']

def plyBufSizeMismatch : List Char :=
  kwPly ++ '\n' :: kwFormat ++ ' ' :: kwBinaryLittleEndian ++ ' ' :: kwVersion
    ++ '\n' :: kwElement ++ ' ' :: kwVertex ++ ' ' :: ['1']
    ++ '\n' :: kwProperty ++ ' ' :: kwFloat ++ ' ' :: pnX
    ++ '\n' :: kwEndHeader ++ ['\n']

def plyBufBadPropType : List Char :=
  kwPly ++ '\n' :: kwFormat ++ ' ' :: kwBinaryLittleEndian ++ ' ' :: kwVersion
    ++ '\n' :: kwElement ++ ' ' :: kwVertex ++ ' ' :: ['1']
    ++ '\n' :: kwProperty ++ ' ' :: ['u', 'c', 'h', 'a', 'r'] ++ ' ' :: pnX
    ++ '\n' :: kwEndHeader ++ ['\n']

/-- Executable check for `ReachesBadProp`, with explicit fuel. -/
def reachesBadPropB : ℕ → List Char → Bool
  | 0, _ => false
  | f + 1, text =>
    match popLine text with
    | (none, _) => false
    | (some line, text') =>
      if isBadPropLine line then true
      else if isEndHeaderLine line then false
      else if text'.length < text.length then reachesBadPropB f text'
      else false

/-! # Theorems -/

/-! ## C3: single-shift versus masked half-float extraction -/

theorem f16_mask_eq {s e m : ℕ} (hs : s ≤ 1) (hem : e + m ≤ 15) :
    f16_mask s e m = (2 ^ (s + e + m) - 1) <<< (15 - e - m) := by
  unfold f16_mask
  rw [Nat.one_shiftLeft]
  apply Nat.mod_eq_of_lt
  rw [Nat.shiftLeft_eq]
  calc (2 ^ (s + e + m) - 1) * 2 ^ (15 - e - m)
      < 2 ^ (s + e + m) * 2 ^ (15 - e - m) := by
        exact mul_lt_mul_of_pos_right
          (Nat.sub_lt (Nat.pos_pow_of_pos _ (by norm_num)) one_pos)
          (Nat.pos_pow_of_pos _ (by norm_num))
    _ = 2 ^ (s + 15) := by rw [← pow_add]; congr 1; omega
    _ < 2 ^ 32 := Nat.pow_lt_pow_right (by norm_num) (by omega)

theorem shift_only_eq_masked_of_signed (e m packed : ℕ) (hem : e + m ≤ 14) :
    f16_shift_only e m packed 0 = f16_masked 1 e m packed 0 := by
  have hsh : 0 < 15 - e - m := by omega
  unfold f16_shift_only f16_masked
  rw [if_pos (Nat.zero_le _), if_pos hsh, Nat.sub_zero,
    f16_mask_eq (le_refl 1) (show e + m ≤ 15 by omega)]
  apply Nat.eq_of_testBit_eq
  intro i
  simp only [Nat.testBit_mod_two_pow, Nat.testBit_and, Nat.testBit_shiftLeft,
    Nat.testBit_two_pow_sub_one]
  by_cases h16 : i < 16
  · by_cases hle : 15 - e - m ≤ i
    · have h32 : i < 32 := by omega
      have hfield : i - (15 - e - m) < 1 + e + m := by omega
      cases hpb : packed.testBit (i - (15 - e - m)) <;>
        simp [h16, hle, h32, hfield, hpb]
    · simp [h16, hle]
  · simp [h16]

theorem shift_only_pow (e m offset : ℕ) (hem : e + m ≤ 14) (h1 : 1 ≤ offset)
    (h2 : offset ≤ 32) :
    f16_shift_only e m (2 ^ (offset - 1)) offset = 2 ^ (15 - e - m - 1) := by
  have hsh : 1 ≤ 15 - e - m := by omega
  unfold f16_shift_only
  rcases le_or_lt offset (15 - e - m) with hc | hc
  · rw [if_pos hc, Nat.shiftLeft_eq, ← pow_add,
      show offset - 1 + (15 - e - m - offset) = 15 - e - m - 1 by omega,
      Nat.mod_eq_of_lt (Nat.pow_lt_pow_right (by norm_num) (by omega)),
      Nat.mod_eq_of_lt (Nat.pow_lt_pow_right (by norm_num) (by omega))]
  · rw [if_neg (by omega), Nat.shiftRight_eq_div_pow,
      Nat.pow_div (by omega) (by norm_num),
      show offset - 1 - (offset - (15 - e - m)) = 15 - e - m - 1 by omega,
      Nat.mod_eq_of_lt (Nat.pow_lt_pow_right (by norm_num) (by omega)),
      Nat.mod_eq_of_lt (Nat.pow_lt_pow_right (by norm_num) (by omega))]

theorem pow_and_f16_mask_eq_zero {s e m k : ℕ} (hs : s ≤ 1) (hem : e + m ≤ 14)
    (hk : k < 15 - e - m) : (2 ^ k) &&& f16_mask s e m = 0 := by
  apply Nat.eq_of_testBit_eq
  intro i
  simp only [Nat.testBit_and, Nat.testBit_two_pow,
    f16_mask_eq hs (show e + m ≤ 15 by omega), Nat.testBit_shiftLeft,
    Nat.testBit_two_pow_sub_one, Nat.zero_testBit, Bool.and_eq_false_iff]
  by_cases hik : k = i
  · subst hik
    right
    simp only [Bool.and_eq_false_iff, decide_eq_false_iff_not]
    left
    omega
  · left
    simp [hik]

theorem masked_pow_zero (s e m offset : ℕ) (hs : s ≤ 1) (hem : e + m ≤ 14)
    (h1 : 1 ≤ offset) (h2 : offset ≤ 32) :
    f16_masked s e m (2 ^ (offset - 1)) offset = 0 := by
  have hsh : 1 ≤ 15 - e - m := by omega
  unfold f16_masked
  rcases lt_or_le offset (15 - e - m) with hc | hc
  · rw [if_pos hc, Nat.shiftLeft_eq, ← pow_add,
      show offset - 1 + (15 - e - m - offset) = 15 - e - m - 1 by omega,
      Nat.mod_eq_of_lt (Nat.pow_lt_pow_right (by norm_num) (by omega)),
      pow_and_f16_mask_eq_zero hs hem (by omega), Nat.zero_mod]
  · rw [if_neg (by omega), Nat.shiftRight_eq_div_pow,
      Nat.pow_div (by omega) (by norm_num),
      show offset - 1 - (offset - (15 - e - m)) = 15 - e - m - 1 by omega,
      Nat.mod_eq_of_lt (Nat.pow_lt_pow_right (by norm_num) (by omega)),
      pow_and_f16_mask_eq_zero hs hem (by omega), Nat.zero_mod]

theorem offset0_s0_shift_only (e m : ℕ) (hem : e + m ≤ 14) :
    f16_shift_only e m (2 ^ (e + m)) 0 = 2 ^ 15 := by
  unfold f16_shift_only
  rw [if_pos (Nat.zero_le _), Nat.sub_zero, Nat.shiftLeft_eq, ← pow_add,
    show e + m + (15 - e - m) = 15 by omega,
    Nat.mod_eq_of_lt (show (2:ℕ) ^ 15 < 2 ^ 32 by norm_num),
    Nat.mod_eq_of_lt (show (2:ℕ) ^ 15 < 2 ^ 16 by norm_num)]

theorem offset0_s0_masked (e m : ℕ) (hem : e + m ≤ 14) :
    f16_masked 0 e m (2 ^ (e + m)) 0 = 0 := by
  have hsh : 0 < 15 - e - m := by omega
  unfold f16_masked
  rw [if_pos hsh, Nat.sub_zero, Nat.shiftLeft_eq, ← pow_add,
    show e + m + (15 - e - m) = 15 by omega,
    Nat.mod_eq_of_lt (show (2:ℕ) ^ 15 < 2 ^ 32 by norm_num)]
  have hz : (2 ^ 15) &&& f16_mask 0 e m = 0 := by
    apply Nat.eq_of_testBit_eq
    intro i
    simp only [Nat.testBit_and, Nat.testBit_two_pow,
      f16_mask_eq (Nat.zero_le 1) (show e + m ≤ 15 by omega),
      Nat.testBit_shiftLeft, Nat.testBit_two_pow_sub_one, Nat.zero_testBit,
      Bool.and_eq_false_iff]
    by_cases hik : 15 = i
    · subst hik
      right
      simp only [Bool.and_eq_false_iff, decide_eq_false_iff_not]
      right
      omega
    · left
      simp [hik]
  rw [hz, Nat.zero_mod]

/-- C3, counterexample.  The claim says the mask-free single-shift extraction
is exact precisely for fields with *no* sign bit at offset 0.  For the
unsigned field `s = 0, e = 5, m = 5` at offset 0 (the layout of the `yy`
variance term) and the packed word `1024` the single shift and the masked
extraction disagree (the source's `unpack_f16` applies the mask there, taking
the mask-free branch only for *signed* fields at offset 0). -/
theorem unpack_f16_single_shift_counterexample :
    f16_shift_only 5 5 1024 0 ≠ f16_masked 0 5 5 1024 0 ∧
      unpack_f16_bits 0 5 5 1024 0 = f16_masked 0 5 5 1024 0 := by decide

/-- C3, amended.  For every field shape used by this codec (`s ≤ 1`,
`e + m ≤ 14`, field inside the 32-bit word), the mask-free single-shift
extraction agrees with the masked extraction for all packed words exactly
when the field *has* a sign bit (`s = 1`) and starts at offset 0. -/
theorem unpack_f16_single_shift_exact_iff (s e m offset : ℕ) (hs : s ≤ 1)
    (hem : e + m ≤ 14) (hoff : offset + (s + e + m) ≤ 32) :
    (∀ packed, packed < 2 ^ 32 →
        f16_shift_only e m packed offset = f16_masked s e m packed offset)
      ↔ (s = 1 ∧ offset = 0) := by
  constructor
  · intro hall
    by_cases ho : offset = 0
    · subst ho
      by_cases hs1 : s = 1
      · exact ⟨hs1, rfl⟩
      · exfalso
        have hs0 : s = 0 := by omega
        have h := hall (2 ^ (e + m))
          (Nat.pow_lt_pow_right (by norm_num) (by omega))
        rw [offset0_s0_shift_only e m hem, hs0,
          offset0_s0_masked e m hem] at h
        exact absurd h (by positivity)
    · exfalso
      have h1 : 1 ≤ offset := by omega
      have h2 : offset ≤ 32 := by omega
      have h := hall (2 ^ (offset - 1))
        (Nat.pow_lt_pow_right (by norm_num) (by omega))
      rw [shift_only_pow e m offset hem h1 h2,
        masked_pow_zero s e m offset hs hem h1 h2] at h
      exact absurd h (by positivity)
  · rintro ⟨hs1, ho⟩
    subst hs1 ho
    intro packed _
    exact shift_only_eq_masked_of_signed e m packed hem

/-- C3 witness: the amended equivalence applied at the signed offset-0 field
`s = 1, e = 5, m = 5` (the layout of the `xz` covariance term) and the packed
word `12345`. -/
theorem unpack_f16_single_shift_exact_iff_witness :
    f16_shift_only 5 5 12345 0 = f16_masked 1 5 5 12345 0 :=
  (unpack_f16_single_shift_exact_iff 1 5 5 0 (by decide) (by decide)
    (by decide)).mpr ⟨rfl, rfl⟩ 12345 (by decide)

/-! ## Distance-kernel and vertex-stage lemmas -/

theorem DISTANCE_SCALE_eq : DISTANCE_SCALE = 65534 := by
  norm_num [DISTANCE_SCALE, DISTANCE_PRECISION, Nat.shiftLeft_eq]

theorem DISTANCE_NOT_VISIBLE_eq : DISTANCE_NOT_VISIBLE = 65535 := by decide

theorem insideFrustum_eq_not_outsideFrustum (p : V4 ℚ) :
    insideFrustum p = !outsideFrustum p := rfl

theorem outsideFrustum_of_outsideAbs (p : V4 ℚ) (h : outsideAbs p) :
    outsideFrustum p = true := by
  have h1 := le_abs_self p.w
  simp only [outsideFrustum, Bool.or_eq_true, decide_eq_true_eq]
  rcases h with h | h | h
  · rcases abs_cases p.x with ⟨hx, _⟩ | ⟨hx, _⟩
    · have hgt : p.x > p.w := by linarith
      tauto
    · have hlt : p.x < -p.w := by linarith
      tauto
  · rcases abs_cases p.y with ⟨hy, _⟩ | ⟨hy, _⟩
    · have hgt : p.y > p.w := by linarith
      tauto
    · have hlt : p.y < -p.w := by linarith
      tauto
  · tauto

theorem measureDistance_le (p : V4 ℚ) (h : insideFrustum p = true) :
    measureDistance p ≤ 65534 := by
  unfold measureDistance
  rw [if_pos h]
  have hs1 : saturate (p.z / p.w) ≤ 1 := min_le_right _ _
  have hs0 : (0:ℚ) ≤ saturate (p.z / p.w) := le_min (le_max_right _ _) zero_le_one
  have hle : saturate (p.z / p.w) * DISTANCE_SCALE ≤ 65534 := by
    rw [DISTANCE_SCALE_eq]; nlinarith
  have hfl : ⌊saturate (p.z / p.w) * DISTANCE_SCALE⌋ ≤ 65534 := by
    calc ⌊saturate (p.z / p.w) * DISTANCE_SCALE⌋ ≤ ⌊(65534:ℚ)⌋ :=
          Int.floor_le_floor hle
      _ = 65534 := by norm_num
  omega

theorem measureDistance_sentinel (p : V4 ℚ) (h : insideFrustum p = false) :
    measureDistance p = DISTANCE_NOT_VISIBLE := by
  unfold measureDistance
  rw [h]
  simp

theorem measureDistance_ne_sentinel (p : V4 ℚ) (h : insideFrustum p = true) :
    measureDistance p ≠ DISTANCE_NOT_VISIBLE := by
  have := measureDistance_le p h
  rw [DISTANCE_NOT_VISIBLE_eq]
  omega

/-- C1.  A splat whose clip-space position (in either stage's own
computation) satisfies `|x| > |w| ∨ |y| > |w| ∨ z > w` gets exactly the
sentinel `DISTANCE_NOT_VISIBLE` written to `distances[id]` by the distance
kernel, and the zero clip position emitted by the vertex stage at each of its
six corner invocations `6 * s + k`. -/
theorem frustum_reject_sentinel_and_zero_quad
    (num_splats : ℕ) (local_to_clip local_to_world : Mat4 ℚ)
    (world_to_clip : V3 ℚ → V4 ℚ) (pos_scale pos_min : V3 ℚ)
    (resolution : V2 ℚ) (positions indices distances vs_indices : ℕ → ℕ)
    (transforms colors : ℕ → V4 ℚ) (id s k : ℕ)
    (hid : id < num_splats) (hk : k < 6)
    (hK : outsideAbs (clipOf local_to_clip pos_scale pos_min (positions id)))
    (hV : outsideAbs (vsClipOf local_to_world world_to_clip pos_scale pos_min
        (positions (vs_indices s)))) :
    (measure_main num_splats local_to_clip pos_scale pos_min positions id
        indices distances).2 id = DISTANCE_NOT_VISIBLE ∧
      (vs_main local_to_world world_to_clip pos_scale pos_min resolution
          vs_indices positions transforms colors (6 * s + k)).position
        = ⟨0, 0, 0, 0⟩ := by
  constructor
  · unfold measure_main
    rw [if_neg (by omega)]
    simp only [Function.update_same]
    exact measureDistance_sentinel _
      (by rw [insideFrustum_eq_not_outsideFrustum,
        outsideFrustum_of_outsideAbs _ hK]; rfl)
  · simp only [vs_main]
    rw [show (6 * s + k) / 6 = s by omega,
      outsideFrustum_of_outsideAbs _ hV]
    rfl

/-- C1 witness: identity transforms, decode origin `(0, 0, 5)` — the clip
position `(0, 0, 5, 1)` fails the frustum test (`z > w`), the kernel writes
the sentinel, and corner invocation 2 of splat 0 emits the zero position. -/
theorem frustum_reject_sentinel_and_zero_quad_witness :
    (measure_main 1 ⟨1,0,0,0, 0,1,0,0, 0,0,1,0, 0,0,0,1⟩ ⟨0,0,0⟩ ⟨0,0,5⟩
        (fun _ => 0) 0 (fun _ => 0) (fun _ => 0)).2 0 = DISTANCE_NOT_VISIBLE ∧
      (vs_main ⟨1,0,0,0, 0,1,0,0, 0,0,1,0, 0,0,0,1⟩ (fun v => ⟨v.x, v.y, v.z, 1⟩)
          ⟨0,0,0⟩ ⟨0,0,5⟩ ⟨1,1⟩ (fun n => n) (fun _ => 0)
          (fun _ => ⟨0,0,0,0⟩) (fun _ => ⟨0,0,0,0⟩) 2).position = ⟨0, 0, 0, 0⟩ :=
  frustum_reject_sentinel_and_zero_quad 1
    ⟨1,0,0,0, 0,1,0,0, 0,0,1,0, 0,0,0,1⟩ ⟨1,0,0,0, 0,1,0,0, 0,0,1,0, 0,0,0,1⟩
    (fun v => ⟨v.x, v.y, v.z, 1⟩) ⟨0,0,0⟩ ⟨0,0,5⟩ ⟨1,1⟩ (fun _ => 0)
    (fun _ => 0) (fun _ => 0) (fun n => n) (fun _ => ⟨0,0,0,0⟩)
    (fun _ => ⟨0,0,0,0⟩) 0 0 2
    (by norm_num)
    (by norm_num)
    (by norm_num [outsideAbs, clipOf, mulV4M4, unpack_pos, unpack_unorm])
    (by norm_num [outsideAbs, vsClipOf, mulV3M3, mat3Of, unpack_pos,
      unpack_unorm])

/-- C2, counterexample.  The claim bounds visible sort keys by `2^16 - 3`.
With the identity transform and decode origin `(0, 0, 1)` the splat's clip
position is `(0, 0, 1, 1)`: it passes the frustum test (`z ≤ w`), yet the
kernel writes `⌊saturate(1) * (2^16 - 2)⌋ = 2^16 - 2 > 2^16 - 3`. -/
theorem sort_key_range_counterexample :
    insideFrustum (clipOf ⟨1,0,0,0, 0,1,0,0, 0,0,1,0, 0,0,0,1⟩ ⟨0,0,0⟩ ⟨0,0,1⟩ 0)
        = true ∧
      (measure_main 1 ⟨1,0,0,0, 0,1,0,0, 0,0,1,0, 0,0,0,1⟩ ⟨0,0,0⟩ ⟨0,0,1⟩
          (fun _ => 0) 0 (fun _ => 0) (fun _ => 0)).2 0 = 65534 ∧
      ¬(65534 ≤ 2 ^ 16 - 3) := by
  refine ⟨?_, ?_, by norm_num⟩
  · norm_num [insideFrustum, clipOf, mulV4M4, unpack_pos, unpack_unorm]
  · simp only [measure_main]
    rw [if_neg (by norm_num)]
    simp only [Function.update_same]
    norm_num [measureDistance, clipOf, mulV4M4, unpack_pos, unpack_unorm,
      insideFrustum, saturate, DISTANCE_SCALE, DISTANCE_PRECISION,
      Nat.shiftLeft_eq]
    decide

/-- C2, amended.  For every in-range splat the kernel writes a sort key in
`[0, 2^16 - 2]` when the splat is inside the frustum (the bound `2^16 - 2`
is attained, see the counterexample), and exactly the sentinel `2^16 - 1`
when it is outside. -/
theorem sort_key_range (num_splats : ℕ) (local_to_clip : Mat4 ℚ)
    (pos_scale pos_min : V3 ℚ) (positions indices distances : ℕ → ℕ)
    (id : ℕ) (hid : id < num_splats) :
    (insideFrustum (clipOf local_to_clip pos_scale pos_min (positions id))
          = true →
        (measure_main num_splats local_to_clip pos_scale pos_min positions id
            indices distances).2 id ≤ 2 ^ 16 - 2) ∧
      (insideFrustum (clipOf local_to_clip pos_scale pos_min (positions id))
          = false →
        (measure_main num_splats local_to_clip pos_scale pos_min positions id
            indices distances).2 id = 2 ^ 16 - 1) := by
  unfold measure_main
  rw [if_neg (by omega)]
  simp only [Function.update_same]
  constructor
  · intro h
    have := measureDistance_le _ h
    norm_num
    omega
  · intro h
    rw [measureDistance_sentinel _ h, DISTANCE_NOT_VISIBLE_eq]
    norm_num

/-- C2 witness: the amended range theorem applied at clip positions
`(0, 0, 1, 1)` (inside, key `≤ 2^16 - 2`) and `(0, 0, 5, 1)` (outside,
key `= 2^16 - 1`). -/
theorem sort_key_range_witness :
    ((measure_main 1 ⟨1,0,0,0, 0,1,0,0, 0,0,1,0, 0,0,0,1⟩ ⟨0,0,0⟩ ⟨0,0,1⟩
          (fun _ => 0) 0 (fun _ => 0) (fun _ => 0)).2 0 ≤ 2 ^ 16 - 2) ∧
      ((measure_main 1 ⟨1,0,0,0, 0,1,0,0, 0,0,1,0, 0,0,0,1⟩ ⟨0,0,0⟩ ⟨0,0,5⟩
          (fun _ => 0) 0 (fun _ => 0) (fun _ => 0)).2 0 = 2 ^ 16 - 1) :=
  ⟨(sort_key_range 1 ⟨1,0,0,0, 0,1,0,0, 0,0,1,0, 0,0,0,1⟩ ⟨0,0,0⟩ ⟨0,0,1⟩
      (fun _ => 0) (fun _ => 0) (fun _ => 0) 0 (by norm_num)).1
    (by norm_num [insideFrustum, clipOf, mulV4M4, unpack_pos, unpack_unorm]),
   (sort_key_range 1 ⟨1,0,0,0, 0,1,0,0, 0,0,1,0, 0,0,0,1⟩ ⟨0,0,0⟩ ⟨0,0,5⟩
      (fun _ => 0) (fun _ => 0) (fun _ => 0) 0 (by norm_num)).2
    (by norm_num [insideFrustum, clipOf, mulV4M4, unpack_pos, unpack_unorm])⟩

/-- C6, counterexample.  With the all-zero composite transform both stages
compute the clip position `(0, 0, 0, 0)` for splat 0 — the same position,
via the same transform.  The vertex stage then emits the zero position
*through its in-frustum branch* (`(0,0,0,0)` passes the frustum test and the
computed corner offsets collapse), while the kernel assigns the key `0`, not
the sentinel: "zero quad emitted iff sentinel assigned" fails. -/
theorem vs_kernel_classification_counterexample :
    (vsClipOf ⟨0,0,0,0, 0,0,0,0, 0,0,0,0, 0,0,0,0⟩ (fun _ => ⟨0,0,0,0⟩)
        ⟨0,0,0⟩ ⟨0,0,0⟩ 0
      = clipOf ⟨0,0,0,0, 0,0,0,0, 0,0,0,0, 0,0,0,0⟩ ⟨0,0,0⟩ ⟨0,0,0⟩ 0) ∧
      (vs_main ⟨0,0,0,0, 0,0,0,0, 0,0,0,0, 0,0,0,0⟩ (fun _ => ⟨0,0,0,0⟩)
          ⟨0,0,0⟩ ⟨0,0,0⟩ ⟨1,1⟩ (fun _ => 0) (fun _ => 0)
          (fun _ => ⟨0,0,0,0⟩) (fun _ => ⟨0,0,0,0⟩) 0).position
        = ⟨0, 0, 0, 0⟩ ∧
      (measure_main 1 ⟨0,0,0,0, 0,0,0,0, 0,0,0,0, 0,0,0,0⟩ ⟨0,0,0⟩ ⟨0,0,0⟩
          (fun _ => 0) 0 (fun _ => 0) (fun _ => 0)).2 0
        ≠ DISTANCE_NOT_VISIBLE := by
  refine ⟨?_, ?_, ?_⟩
  · norm_num [vsClipOf, clipOf, mulV4M4, mulV3M3, mat3Of, unpack_pos,
      unpack_unorm]
  · norm_num [vs_main, vsClipOf, mulV3M3, mat3Of, unpack_pos, unpack_unorm,
      outsideFrustum, corners, mul2x2]
  · simp only [measure_main]
    rw [if_neg (by norm_num)]
    simp only [Function.update_same]
    rw [DISTANCE_NOT_VISIBLE_eq]
    norm_num [measureDistance, clipOf, mulV4M4, unpack_pos, unpack_unorm,
      insideFrustum, saturate, DISTANCE_SCALE, DISTANCE_PRECISION,
      Nat.shiftLeft_eq]

/-- C6, amended.  When the two stages compute the same clip-space position
for a splat and that position is not the zero vector, they classify the
splat identically: the vertex stage emits the zero position (at any of the
six corner invocations) iff the visibility kernel assigns the sentinel
key. -/
theorem vs_matches_kernel_classification
    (num_splats : ℕ) (local_to_clip local_to_world : Mat4 ℚ)
    (world_to_clip : V3 ℚ → V4 ℚ) (pos_scale pos_min : V3 ℚ)
    (resolution : V2 ℚ) (positions indices distances vs_indices : ℕ → ℕ)
    (transforms colors : ℕ → V4 ℚ) (s k : ℕ) (hk : k < 6)
    (hid : vs_indices s < num_splats)
    (hagree : vsClipOf local_to_world world_to_clip pos_scale pos_min
        (positions (vs_indices s))
      = clipOf local_to_clip pos_scale pos_min (positions (vs_indices s)))
    (hnz : clipOf local_to_clip pos_scale pos_min (positions (vs_indices s))
      ≠ ⟨0, 0, 0, 0⟩) :
    (vs_main local_to_world world_to_clip pos_scale pos_min resolution
        vs_indices positions transforms colors (6 * s + k)).position
          = ⟨0, 0, 0, 0⟩
      ↔ (measure_main num_splats local_to_clip pos_scale pos_min positions
          (vs_indices s) indices distances).2 (vs_indices s)
            = DISTANCE_NOT_VISIBLE := by
  unfold measure_main
  rw [if_neg (by omega)]
  simp only [Function.update_same, vs_main]
  rw [show (6 * s + k) / 6 = s by omega, hagree]
  cases hout :
      outsideFrustum (clipOf local_to_clip pos_scale pos_min
        (positions (vs_indices s)))
  · have hin : insideFrustum (clipOf local_to_clip pos_scale pos_min
        (positions (vs_indices s))) = true := by
      rw [insideFrustum_eq_not_outsideFrustum, hout]; rfl
    simp only [hout, Bool.false_eq_true, if_false]
    constructor
    · intro h
      exfalso
      apply hnz
      rw [V4.mk.injEq] at h
      obtain ⟨h1, h2, h3, h4⟩ := h
      rw [h4, mul_zero, add_zero] at h1 h2
      calc clipOf local_to_clip pos_scale pos_min (positions (vs_indices s))
          = ⟨(clipOf local_to_clip pos_scale pos_min
                (positions (vs_indices s))).x,
             (clipOf local_to_clip pos_scale pos_min
                (positions (vs_indices s))).y,
             (clipOf local_to_clip pos_scale pos_min
                (positions (vs_indices s))).z,
             (clipOf local_to_clip pos_scale pos_min
                (positions (vs_indices s))).w⟩ := rfl
        _ = ⟨0, 0, 0, 0⟩ := by rw [h1, h2, h3, h4]
    · intro h
      exact absurd h (measureDistance_ne_sentinel _ hin)
  · have hin : insideFrustum (clipOf local_to_clip pos_scale pos_min
        (positions (vs_indices s))) = false := by
      rw [insideFrustum_eq_not_outsideFrustum, hout]; rfl
    simp [measureDistance_sentinel _ hin]

/-- C6 witness: identity transforms on both paths, clip position
`(0, 0, 0, 1)` (inside, nonzero): corner invocation 3 of splat 0 does not
emit the zero quad and the kernel does not assign the sentinel. -/
theorem vs_matches_kernel_classification_witness :
    (vs_main ⟨1,0,0,0, 0,1,0,0, 0,0,1,0, 0,0,0,1⟩ (fun v => ⟨v.x, v.y, v.z, 1⟩)
        ⟨0,0,0⟩ ⟨0,0,0⟩ ⟨1,1⟩ (fun _ => 0) (fun _ => 0)
        (fun _ => ⟨0,0,0,0⟩) (fun _ => ⟨0,0,0,0⟩) 3).position = ⟨0, 0, 0, 0⟩
      ↔ (measure_main 1 ⟨1,0,0,0, 0,1,0,0, 0,0,1,0, 0,0,0,1⟩ ⟨0,0,0⟩ ⟨0,0,0⟩
          (fun _ => 0) 0 (fun _ => 0) (fun _ => 0)).2 0
        = DISTANCE_NOT_VISIBLE :=
  vs_matches_kernel_classification 1 ⟨1,0,0,0, 0,1,0,0, 0,0,1,0, 0,0,0,1⟩
    ⟨1,0,0,0, 0,1,0,0, 0,0,1,0, 0,0,0,1⟩ (fun v => ⟨v.x, v.y, v.z, 1⟩)
    ⟨0,0,0⟩ ⟨0,0,0⟩ ⟨1,1⟩ (fun _ => 0) (fun _ => 0) (fun _ => 0)
    (fun _ => 0) (fun _ => ⟨0,0,0,0⟩) (fun _ => ⟨0,0,0,0⟩) 0 3
    (by norm_num) (by norm_num)
    (by norm_num [vsClipOf, clipOf, mulV4M4, mulV3M3, mat3Of, unpack_pos,
      unpack_unorm])
    (by norm_num [clipOf, mulV4M4, unpack_pos, unpack_unorm, V4.mk.injEq])

/-- C7.  An invocation whose splat index is at or beyond `num_splats`
returns from both compute kernels before writing: the `transforms`,
`indices` and `distances` buffers are returned unchanged. -/
theorem out_of_range_invocation_noop (num_splats id : ℕ)
    (hid : num_splats ≤ id) (local_to_view : Mat43 ℝ)
    (two_focal_length : V2 ℝ) (pos_scale pos_min : V3 ℝ)
    (positions : ℕ → ℕ) (covariances : ℕ → ℕ × ℕ) (transforms : ℕ → V4 ℝ)
    (local_to_clip : Mat4 ℚ) (pos_scale_q pos_min_q : V3 ℚ)
    (positions_q indices distances : ℕ → ℕ) :
    cov_transform_main num_splats local_to_view two_focal_length pos_scale
        pos_min positions covariances id transforms = transforms ∧
      measure_main num_splats local_to_clip pos_scale_q pos_min_q positions_q
        id indices distances = (indices, distances) := by
  constructor
  · unfold cov_transform_main
    rw [if_pos hid]
  · unfold measure_main
    rw [if_pos hid]

/-- C7 witness: invocation 0 against `num_splats = 0` leaves all three
buffers untouched. -/
theorem out_of_range_invocation_noop_witness :
    cov_transform_main 0 ⟨⟨1,0,0⟩, ⟨0,1,0⟩, ⟨0,0,1⟩, ⟨0,0,0⟩⟩ ⟨1,1⟩ ⟨0,0,0⟩
        ⟨0,0,0⟩ (fun _ => 0) (fun _ => (0, 0)) 0 (fun _ => ⟨0,0,0,0⟩)
      = (fun _ => ⟨0,0,0,0⟩) ∧
      measure_main 0 ⟨1,0,0,0, 0,1,0,0, 0,0,1,0, 0,0,0,1⟩ ⟨0,0,0⟩ ⟨0,0,0⟩
        (fun _ => 0) 0 (fun _ => 0) (fun _ => 0)
      = ((fun _ => 0), (fun _ => 0)) :=
  out_of_range_invocation_noop 0 0 (le_refl 0)
    ⟨⟨1,0,0⟩, ⟨0,1,0⟩, ⟨0,0,1⟩, ⟨0,0,0⟩⟩ ⟨1,1⟩ ⟨0,0,0⟩ ⟨0,0,0⟩
    (fun _ => 0) (fun _ => (0, 0)) (fun _ => ⟨0,0,0,0⟩)
    ⟨1,0,0,0, 0,1,0,0, 0,0,1,0, 0,0,0,1⟩ ⟨0,0,0⟩ ⟨0,0,0⟩
    (fun _ => 0) (fun _ => 0) (fun _ => 0)

/-! ## Covariance projection: eigenvalue identities (C4) -/

/-- C4.  Whenever the discriminant `trace² - 4·det` of the projected 2x2
covariance is positive, the kernel's two eigenvalues (half of each component
of `two_lmb`) sum to `trace(Σ') = Σ'_00 + Σ'_11` and multiply to
`det(Σ') = Σ'_00·Σ'_11 - Σ'_01²`. -/
theorem eigenvalues_sum_trace_mul_det (local_to_view : Mat43 ℝ)
    (pos_local : V4 ℝ) (sig : Mat3 ℝ)
    (h : 0 < (cov_project local_to_view pos_local sig).trace
          * (cov_project local_to_view pos_local sig).trace
        - 4 * (cov_project local_to_view pos_local sig).det) :
    (cov_project local_to_view pos_local sig).two_lmb.x / 2
          + (cov_project local_to_view pos_local sig).two_lmb.y / 2
        = (cov_project local_to_view pos_local sig).sig_p_00
          + (cov_project local_to_view pos_local sig).sig_p_11 ∧
      ((cov_project local_to_view pos_local sig).two_lmb.x / 2)
          * ((cov_project local_to_view pos_local sig).two_lmb.y / 2)
        = (cov_project local_to_view pos_local sig).sig_p_00
            * (cov_project local_to_view pos_local sig).sig_p_11
          - (cov_project local_to_view pos_local sig).sig_p_01_10
            * (cov_project local_to_view pos_local sig).sig_p_01_10 := by
  set d := cov_project local_to_view pos_local sig with hd
  have hx : d.two_lmb.x = d.trace + d.sqrt_disc := rfl
  have hy : d.two_lmb.y = d.trace - d.sqrt_disc := rfl
  have hsd : d.sqrt_disc = Real.sqrt (d.trace * d.trace - 4 * d.det) := rfl
  have htrace : d.trace = d.sig_p_00 + d.sig_p_11 := rfl
  have hdet : d.det = d.sig_p_00 * d.sig_p_11 - d.sig_p_01_10 * d.sig_p_01_10 :=
    rfl
  have hsq : d.sqrt_disc ^ 2 = d.trace * d.trace - 4 * d.det := by
    rw [hsd]; exact Real.sq_sqrt h.le
  constructor
  · rw [hx, hy, ← htrace]; ring
  · rw [hx, hy, ← hdet]
    linear_combination (-1 / 4 : ℝ) * hsq

/-- C4 witness: view rotation the identity, splat on the view axis at depth
1, covariance `diag(1, 2, 1)` — projected covariance `diag(1, 2)`, trace 3,
determinant 2, discriminant `1 > 0`; the eigenvalue halves `2` and `1` sum
to the trace and multiply to the determinant. -/
theorem eigenvalues_sum_trace_mul_det_witness :
    (0 < (cov_project ⟨⟨1,0,0⟩, ⟨0,1,0⟩, ⟨0,0,1⟩, ⟨0,0,0⟩⟩ ⟨0,0,1,1⟩ ⟨1,0,0, 0,2,0, 0,0,1⟩).trace * (cov_project ⟨⟨1,0,0⟩, ⟨0,1,0⟩, ⟨0,0,1⟩, ⟨0,0,0⟩⟩ ⟨0,0,1,1⟩ ⟨1,0,0, 0,2,0, 0,0,1⟩).trace - 4 * (cov_project ⟨⟨1,0,0⟩, ⟨0,1,0⟩, ⟨0,0,1⟩, ⟨0,0,0⟩⟩ ⟨0,0,1,1⟩ ⟨1,0,0, 0,2,0, 0,0,1⟩).det) ∧
      ((cov_project ⟨⟨1,0,0⟩, ⟨0,1,0⟩, ⟨0,0,1⟩, ⟨0,0,0⟩⟩ ⟨0,0,1,1⟩ ⟨1,0,0, 0,2,0, 0,0,1⟩).two_lmb.x / 2 + (cov_project ⟨⟨1,0,0⟩, ⟨0,1,0⟩, ⟨0,0,1⟩, ⟨0,0,0⟩⟩ ⟨0,0,1,1⟩ ⟨1,0,0, 0,2,0, 0,0,1⟩).two_lmb.y / 2 = (cov_project ⟨⟨1,0,0⟩, ⟨0,1,0⟩, ⟨0,0,1⟩, ⟨0,0,0⟩⟩ ⟨0,0,1,1⟩ ⟨1,0,0, 0,2,0, 0,0,1⟩).sig_p_00 + (cov_project ⟨⟨1,0,0⟩, ⟨0,1,0⟩, ⟨0,0,1⟩, ⟨0,0,0⟩⟩ ⟨0,0,1,1⟩ ⟨1,0,0, 0,2,0, 0,0,1⟩).sig_p_11 ∧
        ((cov_project ⟨⟨1,0,0⟩, ⟨0,1,0⟩, ⟨0,0,1⟩, ⟨0,0,0⟩⟩ ⟨0,0,1,1⟩ ⟨1,0,0, 0,2,0, 0,0,1⟩).two_lmb.x / 2) * ((cov_project ⟨⟨1,0,0⟩, ⟨0,1,0⟩, ⟨0,0,1⟩, ⟨0,0,0⟩⟩ ⟨0,0,1,1⟩ ⟨1,0,0, 0,2,0, 0,0,1⟩).two_lmb.y / 2)
          = (cov_project ⟨⟨1,0,0⟩, ⟨0,1,0⟩, ⟨0,0,1⟩, ⟨0,0,0⟩⟩ ⟨0,0,1,1⟩ ⟨1,0,0, 0,2,0, 0,0,1⟩).sig_p_00 * (cov_project ⟨⟨1,0,0⟩, ⟨0,1,0⟩, ⟨0,0,1⟩, ⟨0,0,0⟩⟩ ⟨0,0,1,1⟩ ⟨1,0,0, 0,2,0, 0,0,1⟩).sig_p_11 - (cov_project ⟨⟨1,0,0⟩, ⟨0,1,0⟩, ⟨0,0,1⟩, ⟨0,0,0⟩⟩ ⟨0,0,1,1⟩ ⟨1,0,0, 0,2,0, 0,0,1⟩).sig_p_01_10 * (cov_project ⟨⟨1,0,0⟩, ⟨0,1,0⟩, ⟨0,0,1⟩, ⟨0,0,0⟩⟩ ⟨0,0,1,1⟩ ⟨1,0,0, 0,2,0, 0,0,1⟩).sig_p_01_10) := by
  have hdisc : 0 < (cov_project ⟨⟨1,0,0⟩, ⟨0,1,0⟩, ⟨0,0,1⟩, ⟨0,0,0⟩⟩ ⟨0,0,1,1⟩ ⟨1,0,0, 0,2,0, 0,0,1⟩).trace * (cov_project ⟨⟨1,0,0⟩, ⟨0,1,0⟩, ⟨0,0,1⟩, ⟨0,0,0⟩⟩ ⟨0,0,1,1⟩ ⟨1,0,0, 0,2,0, 0,0,1⟩).trace - 4 * (cov_project ⟨⟨1,0,0⟩, ⟨0,1,0⟩, ⟨0,0,1⟩, ⟨0,0,0⟩⟩ ⟨0,0,1,1⟩ ⟨1,0,0, 0,2,0, 0,0,1⟩).det := by
    norm_num [cov_project, mulV4M43, mulV3M3, dot3]
  exact ⟨hdisc, eigenvalues_sum_trace_mul_det _ _ _ hdisc⟩

/-! ## Gaussian evaluation (C5) -/

theorem RADIUS_SIGMA_OVER_SQRT_2_eq_two : RADIUS_SIGMA_OVER_SQRT_2 = 2 := by
  unfold RADIUS_SIGMA_OVER_SQRT_2 RADIUS_SIGMA
  rw [show (8:ℝ) = 4 * 2 by norm_num,
    Real.sqrt_mul (by norm_num : (0:ℝ) ≤ 4),
    show (4:ℝ) = 2 ^ 2 by norm_num, Real.sqrt_sq (by norm_num : (0:ℝ) ≤ 2),
    mul_div_assoc, div_self (Real.sqrt_ne_zero'.mpr (by norm_num)), mul_one]

theorem CUTOFF_eq_four : CUTOFF_RADIUS_SIGMA_SQUARED_OVER_2 = 4 := by
  unfold CUTOFF_RADIUS_SIGMA_SQUARED_OVER_2
  rw [RADIUS_SIGMA_OVER_SQRT_2_eq_two]
  norm_num

/-- C5, counterexample.  The claim says alpha equals the base alpha exactly
when the distance vector is `(0, 0)`.  With base alpha `0` and distance
vector `(1, 0)` the output alpha equals the base alpha although the vector
is nonzero. -/
theorem gaussian_alpha_counterexample :
    (ps_main ⟨1, 0⟩ ⟨0, 0, 0, 0⟩).w = (⟨0, 0, 0, 0⟩ : V4 ℝ).w ∧
      (⟨1, 0⟩ : V2 ℝ) ≠ ⟨0, 0⟩ := by
  constructor
  · unfold ps_main ps_alpha
    split <;> simp
  · simp [V2.mk.injEq]

/-- C5, amended.  For the Gaussian evaluation stage: alpha is exactly 0 at
or beyond the cutoff; RGB passes through unchanged; for *positive* base
alpha, the output alpha equals the base alpha exactly when the distance
vector is `(0, 0)`; and for nonnegative base alpha the alpha is monotonically
decreasing (antitone) in the squared distance. -/
theorem gaussian_alpha_spec (v : V2 ℝ) (c : V4 ℝ) :
    (CUTOFF_RADIUS_SIGMA_SQUARED_OVER_2 ≤ v.x * v.x + v.y * v.y →
        (ps_main v c).w = 0) ∧
      ((ps_main v c).x = c.x ∧ (ps_main v c).y = c.y ∧
        (ps_main v c).z = c.z) ∧
      (0 < c.w → ((ps_main v c).w = c.w ↔ v.x = 0 ∧ v.y = 0)) ∧
      (0 ≤ c.w → ∀ d₁ d₂ : ℝ, d₁ ≤ d₂ → ps_alpha c.w d₂ ≤ ps_alpha c.w d₁) := by
  refine ⟨?_, ⟨rfl, rfl, rfl⟩, ?_, ?_⟩
  · intro h
    show ps_alpha c.w (v.x * v.x + v.y * v.y) = 0
    unfold ps_alpha
    rw [if_neg (not_lt.mpr h)]
  · intro ha
    show ps_alpha c.w (v.x * v.x + v.y * v.y) = c.w ↔ _
    unfold ps_alpha
    by_cases hc : v.x * v.x + v.y * v.y < CUTOFF_RADIUS_SIGMA_SQUARED_OVER_2
    · rw [if_pos hc]
      constructor
      · intro h
        have h1 : c.w * 1 = c.w * Real.exp (v.x * v.x + v.y * v.y) := by
          rw [mul_one]
          calc c.w = c.w / Real.exp (v.x * v.x + v.y * v.y)
                * Real.exp (v.x * v.x + v.y * v.y) := by
                rw [div_mul_cancel₀ _ (Real.exp_ne_zero _)]
            _ = c.w * Real.exp (v.x * v.x + v.y * v.y) := by rw [h]
        have hexp : Real.exp (v.x * v.x + v.y * v.y) = 1 :=
          (mul_left_cancel₀ ha.ne' h1).symm
        have hzero : v.x * v.x + v.y * v.y = 0 := (Real.exp_eq_one_iff _).mp hexp
        constructor
        · nlinarith
        · nlinarith
      · rintro ⟨hx, hy⟩
        rw [hx, hy]
        norm_num
    · rw [if_neg hc]
      constructor
      · intro h
        exact absurd h.symm ha.ne'
      · rintro ⟨hx, hy⟩
        exfalso
        apply hc
        rw [hx, hy, CUTOFF_eq_four]
        norm_num
  · intro ha d₁ d₂ hle
    unfold ps_alpha
    by_cases h2 : d₂ < CUTOFF_RADIUS_SIGMA_SQUARED_OVER_2
    · have h1 : d₁ < CUTOFF_RADIUS_SIGMA_SQUARED_OVER_2 := lt_of_le_of_lt hle h2
      rw [if_pos h1, if_pos h2]
      gcongr
    · rw [if_neg h2]
      by_cases h1 : d₁ < CUTOFF_RADIUS_SIGMA_SQUARED_OVER_2
      · rw [if_pos h1]
        positivity
      · rw [if_neg h1]

/-- C5 witness: base alpha `1/2`.  At distance vector `(3, 0)` (beyond the
cutoff `4`) the alpha is 0 and red passes through; at `(0, 0)` the alpha
equals the base alpha; and the alpha at squared distance 2 is at most the
alpha at 1. -/
theorem gaussian_alpha_spec_witness :
    (ps_main ⟨3, 0⟩ ⟨1, 0, 0, 1 / 2⟩).w = 0 ∧
      (ps_main ⟨3, 0⟩ ⟨1, 0, 0, 1 / 2⟩).x = 1 ∧
      ((ps_main ⟨0, 0⟩ ⟨1, 0, 0, 1 / 2⟩).w = 1 / 2) ∧
      ps_alpha (1 / 2) 2 ≤ ps_alpha (1 / 2) 1 :=
  ⟨(gaussian_alpha_spec ⟨3, 0⟩ ⟨1, 0, 0, 1 / 2⟩).1
      (by rw [CUTOFF_eq_four]; norm_num),
   (gaussian_alpha_spec ⟨3, 0⟩ ⟨1, 0, 0, 1 / 2⟩).2.1.1,
   ((gaussian_alpha_spec ⟨0, 0⟩ ⟨1, 0, 0, 1 / 2⟩).2.2.1 (by norm_num)).mpr
      ⟨rfl, rfl⟩,
   (gaussian_alpha_spec ⟨0, 0⟩ ⟨1, 0, 0, 1 / 2⟩).2.2.2 (by norm_num) 1 2
      (by norm_num)⟩

/-! ## Import subsystem: fail-fast (C8) and out-parameter purity (C9) -/

/-- C8.  The import fails fast: `validate_metadata` is `false` whenever one
of the 14 required properties is absent; `parse_metadata` returns `false`
(leaving the out-parameter untouched, hence no partial import) whenever the
bytes remaining after a successfully parsed header do not equal
`num_splats * splat_size`; and `parse_data` returns `false` without
extracting any splat when the declared encoding is ASCII text. -/
theorem import_fails_fast (m : Metadata) (p : Property)
    (hp : p ∈ required_properties)
    (hmissing : containsKey m.properties p = false)
    (buf : List Char) (m0 : Metadata) (st st' : PlyParser)
    (hok : parse_header ⟨.Invalid, [], 0, 0, buf⟩ = some (some st))
    (hsz : st.buffer.length ≠ st.num_splats * st.splat_size)
    (hascii : st'.format = PlyFormat.ASCII) :
    validate_metadata m = false ∧
      parse_metadata buf m0 = some (false, m0) ∧
      parse_data st' = (false, []) := by
  refine ⟨?_, ?_, ?_⟩
  · cases hv : validate_metadata m with
    | false => rfl
    | true =>
      exfalso
      have := List.all_eq_true.mp hv p hp
      rw [hmissing] at this
      exact Bool.false_ne_true (by simp at this)
  · unfold parse_metadata
    rw [hok]
    exact if_pos hsz
  · unfold parse_data
    rw [hascii]

/-- C8 witness: a metadata map lacking `opacity`; a well-formed header
(`element vertex 1`, one `float` property) followed by no data bytes
(0 ≠ 1 * 4); and a parser state with the ASCII format. -/
theorem import_fails_fast_witness :
    validate_metadata ⟨[(Property.X, PropertyFormat.F32)], 1⟩ = false ∧
      parse_metadata plyBufSizeMismatch ⟨[], 0⟩ = some (false, ⟨[], 0⟩) ∧
      parse_data ⟨PlyFormat.ASCII, [], 0, 0, []⟩ = (false, []) :=
  import_fails_fast ⟨[(Property.X, PropertyFormat.F32)], 1⟩ Property.Opacity
    (by decide) (by decide) plyBufSizeMismatch ⟨[], 0⟩
    ⟨PlyFormat.BinaryLittleEndian, [(Property.X, ⟨0, PropertyFormat.F32⟩)], 1,
      4, []⟩
    ⟨PlyFormat.ASCII, [], 0, 0, []⟩ (by decide) (by decide) rfl

/-- C9.  Whenever `parse_metadata` returns `false` — header parse failure or
data-size mismatch — the caller's `Metadata` out-parameter is returned
exactly as it was passed in; it is only written after the header parsed and
the remaining size matched. -/
theorem parse_metadata_failure_leaves_metadata (buf : List Char)
    (m m' : Metadata) (h : parse_metadata buf m = some (false, m')) :
    m' = m := by
  unfold parse_metadata at h
  split at h
  · simp at h
  · simp only [Option.some.injEq, Prod.mk.injEq] at h
    exact h.2.symm
  · split at h
    · simp only [Option.some.injEq, Prod.mk.injEq] at h
      exact h.2.symm
    · simp at h

/-- C9 witness: a buffer failing the size check, with a nonempty initial
metadata: the out-parameter comes back unchanged. -/
theorem parse_metadata_failure_leaves_metadata_witness :
    parse_metadata plyBufSizeMismatch ⟨[(Property.Opacity, PropertyFormat.F32)], 7⟩
        = some (false, ⟨[(Property.Opacity, PropertyFormat.F32)], 7⟩) ∧
      (⟨[(Property.Opacity, PropertyFormat.F32)], 7⟩ : Metadata)
        = ⟨[(Property.Opacity, PropertyFormat.F32)], 7⟩ :=
  ⟨by decide,
   parse_metadata_failure_leaves_metadata plyBufSizeMismatch
     ⟨[(Property.Opacity, PropertyFormat.F32)], 7⟩
     ⟨[(Property.Opacity, PropertyFormat.F32)], 7⟩ (by decide)⟩

/-! ## Import subsystem: only `float` / `float32` property types (C10) -/

theorem isBadPropLine_elim {line : List Char} (h : isBadPropLine line = true) :
    ∃ rest tok2 rest2, popToken line = (some kwProperty, rest) ∧
      popToken rest = (some tok2, rest2) ∧ type_map tok2 = none := by
  unfold isBadPropLine at h
  rcases hpt : popToken line with ⟨_ | tok, rest⟩
  · rw [hpt] at h; simp at h
  · rw [hpt] at h
    simp only [Bool.and_eq_true, decide_eq_true_eq] at h
    obtain ⟨htok, hinner⟩ := h
    subst htok
    rcases hpt2 : popToken rest with ⟨_ | tok2, rest2⟩
    · rw [hpt2] at hinner; simp at hinner
    · rw [hpt2] at hinner
      simp only [Option.isNone_iff_eq_none] at hinner
      exact ⟨rest, tok2, rest2, rfl, hpt2, hinner⟩

theorem headerLoop_fails_of_reaches_bad {text : List Char}
    (h : ReachesBadProp text) :
    ∀ (st : PlyParser) (fuel : ℕ), text.length < fuel →
      headerLoop fuel text st = some none := by
  induction h with
  | @here text line text' hpop hbad =>
    intro st fuel hfuel
    obtain ⟨rest, tok2, rest2, hpt, hpt2, htm⟩ := isBadPropLine_elim hbad
    cases fuel with
    | zero => omega
    | succ f =>
      by_cases hns : st.num_splats = 0
      · simp [headerLoop, hpop, hpt, hns,
          show ¬(kwProperty = kwComment) by decide,
          show ¬(kwProperty = kwElement) by decide]
      · simp [headerLoop, hpop, hpt, hpt2, htm, hns,
          show ¬(kwProperty = kwComment) by decide,
          show ¬(kwProperty = kwElement) by decide]
  | @there text line text' hpop hnotbad hnotend hlt hrec ih =>
    intro st fuel hfuel
    cases fuel with
    | zero => omega
    | succ f =>
      simp only [headerLoop, hpop]
      rcases hpt : popToken line with ⟨_ | tok, rest⟩
      · simp only [hpt]
      · simp only [hpt]
        have hne : tok ≠ kwEndHeader := by
          intro he
          rw [isEndHeaderLine, hpt, he] at hnotend
          simp at hnotend
        repeat' first
        | rfl
        | exact ih _ f (by omega)
        | exact absurd (by assumption) hne
        | split

theorem reachesBadPropB_sound :
    ∀ (f : ℕ) (text : List Char), reachesBadPropB f text = true →
      ReachesBadProp text := by
  intro f
  induction f with
  | zero => intro text h; simp [reachesBadPropB] at h
  | succ f ih =>
    intro text h
    rcases hpop : popLine text with ⟨_ | line, text'⟩
    · rw [reachesBadPropB] at h
      simp [hpop] at h
    · rw [reachesBadPropB] at h
      simp only [hpop] at h
      by_cases hbad : isBadPropLine line = true
      · exact ReachesBadProp.here hpop hbad
      · rw [if_neg hbad] at h
        by_cases hend : isEndHeaderLine line = true
        · rw [if_pos hend] at h
          simp at h
        · rw [if_neg hend] at h
          by_cases hlt : text'.length < text.length
          · rw [if_pos hlt] at h
            exact ReachesBadProp.there hpop
              (Bool.not_eq_true _ ▸ hbad) (Bool.not_eq_true _ ▸ hend) hlt
              (ih text' h)
          · rw [if_neg hlt] at h
            simp at h

theorem parse_header_fails_of_reaches_bad (st : PlyParser)
    (h : ReachesBadProp st.buffer) : parse_header st = some none := by
  unfold parse_header
  cases h with
  | @here _ line text' hpop hbad =>
    obtain ⟨rest, tok2, rest2, hpt, hpt2, htm⟩ := isBadPropLine_elim hbad
    have hne : line ≠ kwPly := by
      intro he
      subst he
      rw [show popToken kwPly = (some kwPly, kwPly) from by decide] at hpt
      injection hpt with h1 h2
      injection h1 with h1
      exact absurd h1 (by decide)
    simp [hpop, hne]
  | @there _ line text' hpop hnotbad hnotend hlt hrec =>
    by_cases hply : line = kwPly
    · subst hply
      simp only [hpop]
      rw [if_neg (by simp : ¬(kwPly ≠ kwPly))]
      cases hrec with
      | @here _ fline text2 hpop2 hbad2 =>
        obtain ⟨frest, t2, r2, hptf, hptf2, htmf⟩ := isBadPropLine_elim hbad2
        simp [hpop2, hptf, show (kwProperty ≠ kwFormat) from by decide]
      | @there _ fline text2 hpop2 hnb2 hne2 hlt2 hrec2 =>
        simp only [hpop2]
        rcases hptf : popToken fline with ⟨_ | tok, frest⟩
        · simp [hptf]
        · simp only [hptf]
          by_cases htokf : tok = kwFormat
          · subst htokf
            rw [if_neg (by simp : ¬(kwFormat ≠ kwFormat))]
            rcases hptf2 : popToken frest with ⟨_ | ftok, frest2⟩
            · simp [hptf2]
            · simp only [hptf2]
              cases hfm : format_map ftok with
              | none => simp [hfm]
              | some fmt =>
                simp only [hfm]
                rcases hptf3 : popToken frest2 with ⟨_ | vtok, frest3⟩
                · simp [hptf3]
                · simp only [hptf3]
                  exact headerLoop_fails_of_reaches_bad hrec2 _ _ (by omega)
          · rw [if_pos htokf]
    · simp [hpop, hply]

/-- C10.  Whenever the header text reaches — in the parser's own line
decomposition, before any `end_header` — a property line whose type token is
not `float` or `float32` (e.g. `uchar`, `int`, `double`), `parse_metadata`
returns `false` and leaves the metadata untouched, whatever the property's
name. -/
theorem bad_property_type_rejected (buf : List Char) (m : Metadata)
    (h : ReachesBadProp buf) : parse_metadata buf m = some (false, m) := by
  unfold parse_metadata
  rw [parse_header_fails_of_reaches_bad ⟨.Invalid, [], 0, 0, buf⟩ h]

/-- C10 witness: a header declaring `property uchar x` (a name the importer
would accept, with a type it must reject) is rejected by `parse_metadata`. -/
theorem bad_property_type_rejected_witness :
    parse_metadata plyBufBadPropType ⟨[], 3⟩ = some (false, ⟨[], 3⟩) :=
  bad_property_type_rejected plyBufBadPropType ⟨[], 3⟩
    (reachesBadPropB_sound (plyBufBadPropType.length + 1) plyBufBadPropType
      (by decide))

end Splat
